import Mathlib

/-!
Shallow embedding of the data ingestion, reshaping and aggregation pipeline of
`src/dashboard.py` and `src/dashboard2.py` (vehicle-registration dashboard),
together with proofs settling the frozen claims about it.

Conventions of the embedding:
* A pandas cell that may be `NaN` is an `Option` value (`none` = `NaN`); this
  also covers columns that are absent from one input file, since `pd.concat`
  aligns columns across files and fills the missing ones with `NaN`.
* A `Timestamp` for the first day of `(year, month)` is encoded by its linear
  month index `year * 12 + (month - 1)`; a quarterly `Period` is encoded by its
  linear quarter index `year * 4 + (quarter - 1)`.  Both encodings are strictly
  monotone in calendar order, and `Period - k` is subtraction on the index,
  exactly as pandas period arithmetic behaves.
* `float` results of growth computations are modelled by `PFloat`, rationals
  extended with the IEEE specials `inf`, `-inf` and `NaN` that the pipeline can
  actually produce (division of a finite value by zero).
-/

namespace VehicleDash

/-- One row of a loaded registration CSV, viewed through the columns the
pipeline uses (`Maker`, `2W`, `3W`, `4W`); each cell is `none` when missing. -/
structure RawRow where
  maker : Option String
  w2 : Option Int
  w3 : Option Int
  w4 : Option Int
deriving Repr, DecidableEq

/-- A discovered file that passed the filename and folder checks of
`load_and_prepare_data`, tagged with the year and month parsed from its name.
`content = none` models a file on which `pd.read_csv` raises (malformed CSV):
the per-file `except` branch reports it and skips it. -/
structure RawFile where
  year : Int
  month : Nat
  content : Option (List RawRow)
deriving Repr, DecidableEq

/-- Linear month index of the first-of-month `Timestamp` built from
`(year, month)` (the `Date` column). -/
def monthCode (y : Int) (m : Nat) : Int := y * 12 + ((m - 1 : Nat) : Int)

/-- Source: `Date.dt.quarter`: quarter 1–4 derived from the month. -/
def quarterValueOfMonth (m : Nat) : Nat := (m - 1) / 3 + 1

/-- Linear quarter index of the quarterly `Period` for `(year, quarter)`. -/
def quarterCode (y : Int) (q : Nat) : Int := y * 4 + ((q - 1 : Nat) : Int)

/-- One row of the long-form table produced by `load_and_prepare_data` in
`dashboard.py`: melt output plus the derived `Date`, `QuarterValue` and the
string `Quarter` column. -/
structure DataRow1 where
  maker : Option String
  year : Int
  month : Nat
  category : String
  registrations : Int
  date : Int
  quarterValue : Nat
  quarter : String
deriving Repr, DecidableEq

/-- One row of the long-form table produced by `load_and_prepare_data` in
`dashboard2.py`; its `Quarter` column is the quarterly `Period` (encoded by its
linear index) instead of a `Q<n>` string. -/
structure DataRow2 where
  maker : Option String
  year : Int
  month : Nat
  category : String
  registrations : Int
  date : Int
  quarterValue : Nat
  quarter : Int
deriving Repr, DecidableEq

/-- A row of `combined_df`: a source row tagged with its file's year and
month (`df['year'] = int(year_str); df['month'] = month`). -/
structure WideRow where
  maker : Option String
  year : Int
  month : Nat
  w2 : Option Int
  w3 : Option Int
  w4 : Option Int
deriving Repr, DecidableEq

/-- A row of `melted_df` before the positivity filter: one
`(Maker, year, month)` row paired with one category column's cell. -/
structure MeltRow where
  maker : Option String
  year : Int
  month : Nat
  category : String
  value : Option Int
deriving Repr, DecidableEq

/-- The `all_data` list: files whose `pd.read_csv` succeeded, with their rows
tagged by the file's year and month. -/
def loadedFiles (files : List RawFile) : List (List WideRow) :=
  files.filterMap fun f =>
    f.content.map fun rows =>
      rows.map fun r => ⟨r.maker, f.year, f.month, r.w2, r.w3, r.w4⟩

/-- Source: `combined_df = pd.concat(all_data)`. -/
def combinedRows (files : List RawFile) : List WideRow :=
  (loadedFiles files).flatten

/-- One `value_vars` block of `combined_df.melt`. -/
def meltOne (cat : String) (get : WideRow → Option Int) (l : List WideRow) :
    List MeltRow :=
  l.map fun r => ⟨r.maker, r.year, r.month, cat, get r⟩

/-- Source: `combined_df.melt(id_vars=['Maker','year','month'],
value_vars=['2W','3W','4W'])`: pandas stacks the three category blocks. -/
def meltedRows (l : List WideRow) : List MeltRow :=
  meltOne "2W" (·.w2) l ++ meltOne "3W" (·.w3) l ++ meltOne "4W" (·.w4) l

/-- The filter `melted_df['Registrations'] > 0`; a `NaN` cell compares as
`False` in pandas, so `none` is dropped. -/
def posValue : Option Int → Bool
  | some v => decide (0 < v)
  | none => false

/-- Source: `load_and_prepare_data` of `dashboard.py`: discoverable files in, long-form
rows out.  Files whose parse raised are skipped by the per-file handler; if no
file was loaded an empty frame is returned; otherwise concat, melt, keep the
strictly positive registrations, and attach `Date`, `QuarterValue` and the
string `Quarter` column. -/
def load_and_prepare_data (files : List RawFile) : List DataRow1 :=
  if (loadedFiles files).isEmpty then [] else
    ((meltedRows (combinedRows files)).filter fun m => posValue m.value).map
      fun m =>
        ⟨m.maker, m.year, m.month, m.category, m.value.getD 0,
         monthCode m.year m.month, quarterValueOfMonth m.month,
         "Q" ++ toString (quarterValueOfMonth m.month)⟩

/-- Source: `load_and_prepare_data` of `dashboard2.py`: identical pipeline except that
the `Quarter` column is `Date.dt.to_period('Q')`. -/
def load_and_prepare_data2 (files : List RawFile) : List DataRow2 :=
  if (loadedFiles files).isEmpty then [] else
    ((meltedRows (combinedRows files)).filter fun m => posValue m.value).map
      fun m =>
        ⟨m.maker, m.year, m.month, m.category, m.value.getD 0,
         monthCode m.year m.month, quarterValueOfMonth m.month,
         quarterCode m.year (quarterValueOfMonth m.month)⟩

/-- The columns a row shares between the two dashboard variants (everything
except the `Quarter` column). -/
structure CoreRow where
  maker : Option String
  year : Int
  month : Nat
  category : String
  registrations : Int
  date : Int
  quarterValue : Nat
deriving Repr, DecidableEq

/-- Projection of a `dashboard.py` row onto the shared columns. -/
def core1 (r : DataRow1) : CoreRow :=
  ⟨r.maker, r.year, r.month, r.category, r.registrations, r.date, r.quarterValue⟩

/-- Projection of a `dashboard2.py` row onto the shared columns. -/
def core2 (r : DataRow2) : CoreRow :=
  ⟨r.maker, r.year, r.month, r.category, r.registrations, r.date, r.quarterValue⟩

/-! ## Sidebar filters and per-granularity metrics -/

/-- Source: `data['Maker'].isin(selected)`; for a `NaN` maker `isin` is `False`. -/
def makerIn (sel : List String) : Option String → Bool
  | some m => sel.contains m
  | none => false

/-- The `filtered_data` mask common to both dashboards: year in the selected
range, category and maker selected. -/
def filtered_data (data : List DataRow1) (ylo yhi : Int)
    (cats makers : List String) : List DataRow1 :=
  data.filter fun r =>
    decide (ylo ≤ r.year) && decide (r.year ≤ yhi) &&
      cats.contains r.category && makerIn makers r.maker

/-- Sum of the `Registrations` column. -/
def sumRegs (l : List DataRow1) : Int := (l.map (·.registrations)).sum

/-- Source: `pd.to_datetime(f"{year}-{month}-01") - pd.DateOffset(months=1)`. -/
def prevMonthOf (y : Int) (m : Nat) : Int × Nat :=
  if m = 1 then (y - 1, 12) else (y, m - 1)

/-- Monthly mode, `prev_month_registrations`: the lookup runs on `data` (the
full dataset), masked by previous month and the category/maker selections. -/
def prev_month_registrations (data : List DataRow1) (cats makers : List String)
    (y : Int) (m : Nat) : Int :=
  sumRegs (data.filter fun r =>
    decide (r.year = (prevMonthOf y m).1) && decide (r.month = (prevMonthOf y m).2) &&
      cats.contains r.category && makerIn makers r.maker)

/-- Monthly mode, `prev_year_registrations`: same month, previous year, again
on the full dataset masked by category/maker. -/
def prev_year_registrations (data : List DataRow1) (cats makers : List String)
    (y : Int) (m : Nat) : Int :=
  sumRegs (data.filter fun r =>
    decide (r.year = y - 1) && decide (r.month = m) &&
      cats.contains r.category && makerIn makers r.maker)

/-- The growth expression `((cur - prev) / prev) * 100 if prev else 0` shared
by every metric block of both dashboards. -/
def growthIfPrev (cur prev : Int) : ℚ :=
  if prev ≠ 0 then (((cur : ℚ) - (prev : ℚ)) / (prev : ℚ)) * 100 else 0

/-- Sum of the `Registrations` column of a `dashboard2.py` frame. -/
def sumRegs2 (l : List DataRow2) : Int := (l.map (·.registrations)).sum

/-- Quarterly mode of `dashboard2.py`, `prev_quarter_registrations`: previous
quarterly period, looked up on the full dataset masked by category/maker. -/
def prev_quarter_registrations2 (data : List DataRow2) (cats makers : List String)
    (y : Int) (q : Nat) : Int :=
  sumRegs2 (data.filter fun r =>
    decide (r.quarter = quarterCode y q - 1) &&
      cats.contains r.category && makerIn makers r.maker)

/-- Quarterly mode of `dashboard2.py`, `prev_year_quarter_registrations`: the
quarterly period four units back, on the full dataset masked by
category/maker. -/
def prev_year_quarter_registrations2 (data : List DataRow2) (cats makers : List String)
    (y : Int) (q : Nat) : Int :=
  sumRegs2 (data.filter fun r =>
    decide (r.quarter = quarterCode y q - 4) &&
      cats.contains r.category && makerIn makers r.maker)

/-- Overall-Trend mode, `pd.Period(filtered_data['Date'].max(), freq='Q')`.
The dashboard only reaches this code with a nonempty `filtered_data`; on an
empty list the `getD` default stands in for the `NaT` pandas would give. -/
def latest_quarter_period (fd : List DataRow1) : Int :=
  ((List.max? ((fd.map fun r => r.date : List Int))).getD 0).fdiv 3

/-- Overall-Trend mode, `prev_quarter_registrations`: rows of `filtered_data`
whose quarterly period is one unit before the latest quarter. -/
def overall_prev_quarter_registrations (fd : List DataRow1) : Int :=
  sumRegs (fd.filter fun r => decide (r.date.fdiv 3 = latest_quarter_period fd - 1))

/-- Overall-Trend mode, `prev_year_quarter_registrations`: rows of
`filtered_data` whose quarterly period is four units before the latest. -/
def overall_prev_year_quarter_registrations (fd : List DataRow1) : Int :=
  sumRegs (fd.filter fun r => decide (r.date.fdiv 3 = latest_quarter_period fd - 4))

/-! ## The quarterly YoY growth ranking of `dashboard.py` -/

/-- A pandas float as this pipeline can produce it: a finite rational, an
infinity from dividing a nonzero value by zero, or `NaN` from `0 / 0`. -/
inductive PFloat where
  | val : ℚ → PFloat
  | pinf : PFloat
  | ninf : PFloat
  | nan : PFloat
deriving Repr, DecidableEq

/-- Source: `(cur - prev) / prev * 100` in float arithmetic. -/
def yoyGrowthRaw (cur prev : Int) : PFloat :=
  if prev = 0 then
    if 0 < cur - prev then .pinf
    else if cur - prev < 0 then .ninf
    else .nan
  else .val ((((cur : ℚ) - (prev : ℚ)) / (prev : ℚ)) * 100)

/-- Source: `growth_df.replace([inf, -inf], 0)`. -/
def replaceInfWithZero : PFloat → PFloat
  | .pinf => .val 0
  | .ninf => .val 0
  | p => p

/-- A total comparison on `PFloat` mirroring ascending `sort_values` order
(`-inf` first, finite values by magnitude, `inf`, then `NaN` last, pandas
`na_position='last'`); after `replace`/`dropna` only finite values occur. -/
def pfloatLe : PFloat → PFloat → Bool
  | .ninf, _ => true
  | _, .nan => true
  | .val a, .val b => decide (a ≤ b)
  | .val _, .pinf => true
  | .pinf, .pinf => true
  | _, _ => false

/-- Source: `previous_year_data` (resp. with `y` itself, `current_year_data`): rows of
the given year whose `Quarter` string matches, then category-filtered. -/
def yoyQuarterData (data : List DataRow1) (y : Int) (qLabel : String)
    (cats : List String) : List DataRow1 :=
  (data.filter fun r => decide (r.year = y) && decide (r.quarter = qLabel)).filter
    fun r => cats.contains r.category

/-- The sorted distinct `groupby('Maker')` keys; pandas drops `NaN` keys and
sorts the remaining ones ascending. -/
def groupKeys (l : List DataRow1) : List String :=
  ((l.filterMap fun r => r.maker).dedup).mergeSort fun a b => decide (a ≤ b)

/-- Source: `groupby('Maker')['Registrations'].sum()` looked up at one key: `none`
when the maker has no row (the key is absent from the grouped series). -/
def groupSum (l : List DataRow1) (m : String) : Option Int :=
  if (l.filter fun r => decide (r.maker = some m)).isEmpty then none
  else some (sumRegs (l.filter fun r => decide (r.maker = some m)))

/-- The outer-join index of
`pd.DataFrame({'PreviousSales': .., 'CurrentSales': ..})`: the sorted union of
the two key sets. -/
def unionKeys (a b : List DataRow1) : List String :=
  ((groupKeys a ++ groupKeys b).dedup).mergeSort fun x y => decide (x ≤ y)

/-- One row of `growth_df` after the YoY column is added. -/
structure GrowthRow where
  maker : String
  previousSales : Int
  currentSales : Int
  yoyGrowth : PFloat
deriving Repr, DecidableEq

/-- Source: `growth_df` construction: outer join of the two grouped sums with
`fillna(0)`, the YoY growth column, and `replace([inf, -inf], 0)`. -/
def growth_df (data : List DataRow1) (y : Int) (qLabel : String)
    (cats : List String) : List GrowthRow :=
  let prevD := yoyQuarterData data (y - 1) qLabel cats
  let curD := yoyQuarterData data y qLabel cats
  (unionKeys prevD curD).map fun m =>
    let prev := (groupSum prevD m).getD 0
    let cur := (groupSum curD m).getD 0
    ⟨m, prev, cur, replaceInfWithZero (yoyGrowthRaw cur prev)⟩

/-- Source: `growth_df.dropna(subset=['YoY_Growth_%'])`. -/
def dropnaGrowth (l : List GrowthRow) : List GrowthRow :=
  l.filter fun r => !(r.yoyGrowth == PFloat.nan)

/-- The descending `sort_values(by='YoY_Growth_%', ascending=False)` order. -/
def growthDesc (a b : GrowthRow) : Bool := pfloatLe b.yoyGrowth a.yoyGrowth

/-- "Top 5 Growth Companies" mode: sort descending by growth, keep 5. -/
def yoyTop5 (data : List DataRow1) (y : Int) (qLabel : String)
    (cats : List String) : List GrowthRow :=
  ((dropnaGrowth (growth_df data y qLabel cats)).mergeSort growthDesc).take 5

/-- "Selected Companies" mode: restrict to the selected makers, then sort
descending by growth. -/
def yoySelected (data : List DataRow1) (y : Int) (qLabel : String)
    (cats makers : List String) : List GrowthRow :=
  ((dropnaGrowth (growth_df data y qLabel cats)).filter fun r =>
    makers.contains r.maker).mergeSort growthDesc

/-! ## Top manufacturers -/

/-- Source: `data.groupby('Maker')['Registrations'].sum()` as a (key, total) list in
the grouped (name-ascending) order. -/
def groupbyMakerSum (data : List DataRow1) : List (String × Int) :=
  (groupKeys data).map fun m =>
    (m, sumRegs (data.filter fun r => decide (r.maker = some m)))

/-- Source: `Series.nlargest(n)` over a (key, value) list: pandas keeps the first
occurrences among ties (`keep='first'`), i.e. a stable descending sort
followed by `take n`; `List.mergeSort` is stable, matching that behaviour. -/
def nlargestBySales (l : List (String × Int)) (n : Nat) : List (String × Int) :=
  (l.mergeSort fun a b => decide (b.2 ≤ a.2)).take n

/-- Source: `data.groupby('Maker')['Registrations'].sum().nlargest(n).index.tolist()`
(`dashboard.py` instantiates `n = 10`). -/
def top_manufacturers (data : List DataRow1) (n : Nat) : List String :=
  (nlargestBySales (groupbyMakerSum data) n).map fun p => p.1

/-! ## CSV download -/

/-- The column order of the prepared frame: melt output followed by the three
derived columns, in assignment order. -/
def dataColumns : List String :=
  ["Maker", "year", "month", "Vehicle Category", "Registrations",
   "Date", "QuarterValue", "Quarter"]

/-- Source: `dashboard.py`: `filtered_data.drop(columns=['Date', 'QuarterValue'])`
before the download. -/
def downloadColumns1 : List String :=
  dataColumns.filter fun c => !(["Date", "QuarterValue"].contains c)

/-- Source: `dashboard2.py` passes `filtered_data` to `convert_df_to_csv` unmodified,
so every column of the frame is exported. -/
def downloadColumns2 : List String := dataColumns

/-- String rendering of one cell of a `dashboard.py` row, by column name (the
`Date` cell is rendered through its linear-month encoding). -/
def cellOf1 (r : DataRow1) (c : String) : String :=
  if c = "Maker" then r.maker.getD "" else
  if c = "year" then toString r.year else
  if c = "month" then toString r.month else
  if c = "Vehicle Category" then r.category else
  if c = "Registrations" then toString r.registrations else
  if c = "Date" then toString r.date else
  if c = "QuarterValue" then toString r.quarterValue else
  if c = "Quarter" then r.quarter else ""

/-- String rendering of one cell of a `dashboard2.py` row, by column name. -/
def cellOf2 (r : DataRow2) (c : String) : String :=
  if c = "Maker" then r.maker.getD "" else
  if c = "year" then toString r.year else
  if c = "month" then toString r.month else
  if c = "Vehicle Category" then r.category else
  if c = "Registrations" then toString r.registrations else
  if c = "Date" then toString r.date else
  if c = "QuarterValue" then toString r.quarterValue else
  if c = "Quarter" then toString r.quarter else ""

/-- Source: `df.to_csv` of `df_for_download` in `dashboard.py`: header then one cell
row per record, over the post-drop columns. -/
def downloadTable1 (fd : List DataRow1) : List (List String) :=
  downloadColumns1 :: fd.map fun r => downloadColumns1.map (cellOf1 r)

/-- Source: `df.to_csv` of `filtered_data` in `dashboard2.py`: header then one cell
row per record, over all columns of the frame. -/
def downloadTable2 (fd : List DataRow2) : List (List String) :=
  downloadColumns2 :: fd.map fun r => downloadColumns2.map (cellOf2 r)

/-! ## Definitions formalised from the spec (for refinement comparisons) -/

/-- Formalised from the spec: the dataset restricted only by the selected
categories and manufacturers (no period restriction). -/
def specCatMakerData (data : List DataRow1) (cats makers : List String) :
    List DataRow1 :=
  data.filter fun r => cats.contains r.category && makerIn makers r.maker

/-- Formalised from the spec: the same restriction on a `dashboard2.py`
frame. -/
def specCatMakerData2 (data : List DataRow2) (cats makers : List String) :
    List DataRow2 :=
  data.filter fun r => cats.contains r.category && makerIn makers r.maker

/-- Formalised from the spec: the total of a given month looked up against the
dataset restricted only by categories and manufacturers. -/
def specPriorMonthTotal (data : List DataRow1) (cats makers : List String)
    (p : Int × Nat) : Int :=
  sumRegs ((specCatMakerData data cats makers).filter fun r =>
    decide (r.year = p.1) && decide (r.month = p.2))

/-- Formalised from the spec: the total of a given quarterly period looked up
against the dataset restricted only by categories and manufacturers. -/
def specPriorQuarterTotal (data : List DataRow1) (cats makers : List String)
    (qc : Int) : Int :=
  sumRegs ((specCatMakerData data cats makers).filter fun r =>
    decide (r.date.fdiv 3 = qc))

/-- Formalised from the spec: the quarterly-period total on a `dashboard2.py`
frame restricted only by categories and manufacturers. -/
def specPriorQuarterTotal2 (data : List DataRow2) (cats makers : List String)
    (qc : Int) : Int :=
  sumRegs2 ((specCatMakerData2 data cats makers).filter fun r =>
    decide (r.quarter = qc))

/-- Formalised from the spec: top-n order, total descending with ties broken
by manufacturer name ascending. -/
def specTopRel (a b : String × Int) : Bool :=
  decide (b.2 < a.2) || (decide (a.2 = b.2) && decide (a.1 ≤ b.1))

/-- Formalised from the spec: `TopManufacturers(subset, n)` — group by maker,
sum, order by total descending with name-ascending tie-break, keep `n`. -/
def specTopManufacturers (data : List DataRow1) (n : Nat) :
    List (String × Int) :=
  ((groupbyMakerSum data).mergeSort specTopRel).take n

/-- The (manufacturer, category, year, month) key of a normalized record. -/
def keyOf (r : DataRow1) : Option String × String × Int × Nat :=
  (r.maker, r.category, r.year, r.month)

/-- The (maker, year, month) key of a combined wide row. -/
def wideKey (w : WideRow) : Option String × Int × Nat := (w.maker, w.year, w.month)

/-- The (maker, category, year, month) key of a melted row. -/
def meltKey (m : MeltRow) : Option String × String × Int × Nat :=
  (m.maker, m.category, m.year, m.month)

/-- Formalised from the spec: the ranking table the ZeroDivisionPolicy
describes — one entry per maker present in either compared quarter, missing
sides read as 0, and growth equal to `(cur - prev) / prev * 100`, or exactly 0
when the prior total is 0. -/
def specGrowthTable (data : List DataRow1) (y : Int) (qLabel : String)
    (cats : List String) : List GrowthRow :=
  (unionKeys (yoyQuarterData data (y - 1) qLabel cats)
      (yoyQuarterData data y qLabel cats)).map fun m =>
    let p := (groupSum (yoyQuarterData data (y - 1) qLabel cats) m).getD 0
    let c := (groupSum (yoyQuarterData data y qLabel cats) m).getD 0
    ⟨m, p, c,
      PFloat.val (if p = 0 then 0 else (((c : ℚ) - (p : ℚ)) / (p : ℚ)) * 100)⟩

/-! ## Concrete sample inputs used by witnesses and counterexamples -/

/-- One file (January 2023) with a single maker and a single positive `2W`
cell. -/
def sampleFilesA : List RawFile :=
  [⟨2023, 1, some [⟨some "X", some 5, none, none⟩]⟩]

/-- Two files: December 2022 and January 2023, one maker, positive `2W`
cells only. -/
def sampleFilesC1 : List RawFile :=
  [⟨2022, 12, some [⟨some "M", some 100, none, none⟩]⟩,
   ⟨2023, 1, some [⟨some "M", some 50, none, none⟩]⟩]

/-- A maker with a prior-year quarter but no current one, a maker present in
both, and a maker new in the current year. -/
def sampleFilesC2 : List RawFile :=
  [⟨2022, 1, some [⟨some "A", some 100, none, none⟩]⟩,
   ⟨2023, 1, some [⟨some "A", some 110, none, none⟩,
                   ⟨some "B", some 50, none, none⟩]⟩]

/-- One file containing two rows for the same maker (duplicate source
rows). -/
def sampleFilesC3 : List RawFile :=
  [⟨2023, 1, some [⟨some "X", some 5, none, none⟩,
                   ⟨some "X", some 7, none, none⟩]⟩]

/-- A good file plus a file whose CSV parses but lacks the `Maker` column
(after `pd.concat` its rows carry a missing maker). -/
def sampleFilesC4 : List RawFile :=
  [⟨2023, 1, some [⟨some "X", some 100, none, none⟩]⟩,
   ⟨2023, 2, some [⟨none, some 5, none, none⟩]⟩]

/-- Two makers present in both compared quarters, with growth 10% (A) and
100% (B), so that growth-descending order differs from selection order. -/
def sampleFilesC6 : List RawFile :=
  [⟨2022, 1, some [⟨some "A", some 100, none, none⟩,
                   ⟨some "B", some 100, none, none⟩]⟩,
   ⟨2023, 1, some [⟨some "A", some 110, none, none⟩,
                   ⟨some "B", some 200, none, none⟩]⟩]

/-! ## Order facts used for the sorting proofs -/

theorem stringLe_trans (a b c : String) (h1 : decide (a ≤ b) = true)
    (h2 : decide (b ≤ c) = true) : decide (a ≤ c) = true := by
  simp only [decide_eq_true_eq] at h1 h2 ⊢
  exact le_trans h1 h2

theorem stringLe_total (a b : String) :
    (decide (a ≤ b) || decide (b ≤ a)) = true := by
  simpa using le_total a b

theorem salesDesc_trans (a b c : String × Int) (h1 : decide (b.2 ≤ a.2) = true)
    (h2 : decide (c.2 ≤ b.2) = true) : decide (c.2 ≤ a.2) = true := by
  simp only [decide_eq_true_eq] at h1 h2 ⊢
  omega

theorem salesDesc_total (a b : String × Int) :
    (decide (b.2 ≤ a.2) || decide (a.2 ≤ b.2)) = true := by
  simpa using le_total b.2 a.2

theorem specTopRel_trans (a b c : String × Int) (hab : specTopRel a b = true)
    (hbc : specTopRel b c = true) : specTopRel a c = true := by
  unfold specTopRel at hab hbc ⊢
  simp only [Bool.or_eq_true, Bool.and_eq_true, decide_eq_true_eq] at hab hbc ⊢
  rcases hab with h1 | ⟨h1, h2⟩ <;> rcases hbc with h3 | ⟨h3, h4⟩
  · exact Or.inl (by omega)
  · exact Or.inl (by omega)
  · exact Or.inl (by omega)
  · exact Or.inr ⟨by omega, le_trans h2 h4⟩

theorem specTopRel_total (a b : String × Int) :
    (specTopRel a b || specTopRel b a) = true := by
  unfold specTopRel
  simp only [Bool.or_eq_true, Bool.and_eq_true, decide_eq_true_eq]
  rcases lt_trichotomy a.2 b.2 with h | h | h
  · exact Or.inr (Or.inl h)
  · rcases le_total a.1 b.1 with h2 | h2
    · exact Or.inl (Or.inr ⟨h, h2⟩)
    · exact Or.inr (Or.inr ⟨h.symm, h2⟩)
  · exact Or.inl (Or.inl h)

theorem specTopRel_antisymm {a b : String × Int} (hab : specTopRel a b = true)
    (hba : specTopRel b a = true) : a = b := by
  unfold specTopRel at hab hba
  simp only [Bool.or_eq_true, Bool.and_eq_true, decide_eq_true_eq] at hab hba
  rcases hab with h1 | ⟨h1, h2⟩ <;> rcases hba with h3 | ⟨h3, h4⟩
  · omega
  · omega
  · omega
  · exact Prod.ext (le_antisymm h2 h4) h1

theorem groupKeys_sorted (l : List DataRow1) :
    (groupKeys l).Pairwise fun a b => a ≤ b := by
  unfold groupKeys
  have h := List.sorted_mergeSort stringLe_trans stringLe_total
    ((l.filterMap fun r => r.maker).dedup)
  exact h.imp fun hab => by simpa using hab

theorem groupKeys_nodup (l : List DataRow1) : (groupKeys l).Nodup := by
  unfold groupKeys
  exact ((List.mergeSort_perm _ _).nodup_iff).2 (List.nodup_dedup _)

theorem groupbyMakerSum_strict (data : List DataRow1) :
    (groupbyMakerSum data).Pairwise fun a b => a.1 < b.1 := by
  unfold groupbyMakerSum
  rw [List.pairwise_map]
  exact ((groupKeys_sorted data).and (groupKeys_nodup data)).imp
    fun hab => lt_of_le_of_ne hab.1 hab.2

/-- On a list with strictly increasing names, earlier position is equivalent
to smaller name. -/
theorem enum_fst_le_iff {l : List (String × Int)}
    (hl : l.Pairwise fun a b => a.1 < b.1) {x y : Nat × (String × Int)}
    (hx : x ∈ l.enum) (hy : y ∈ l.enum) :
    x.1 ≤ y.1 ↔ x.2.1 ≤ y.2.1 := by
  rcases x with ⟨i, a⟩
  rcases y with ⟨j, b⟩
  rw [List.mk_mem_enum_iff_getElem?] at hx hy
  rcases List.getElem?_eq_some_iff.1 hx with ⟨hi, ha⟩
  rcases List.getElem?_eq_some_iff.1 hy with ⟨hj, hb⟩
  have hstrict := List.pairwise_iff_getElem.1 hl
  constructor
  · intro hij
    rcases Nat.lt_or_ge i j with h | h
    · have hlt := hstrict i j hi hj h
      rw [ha, hb] at hlt
      exact le_of_lt hlt
    · have hij2 : i = j := Nat.le_antisymm hij h
      subst hij2
      rw [ha] at hb
      rw [hb]
  · intro hab
    by_contra hij
    push_neg at hij
    have hlt := hstrict j i hj hi hij
    rw [ha, hb] at hlt
    exact absurd hab (not_le.2 hlt)

/-- Stability argument: on a list sorted strictly by name, the stable
descending-by-total sort (pandas `nlargest`, `keep='first'`) coincides with
the sort by (total descending, name ascending). -/
theorem mergeSort_desc_eq_spec {l : List (String × Int)}
    (hl : l.Pairwise fun a b => a.1 < b.1) :
    l.mergeSort (fun a b => decide (b.2 ≤ a.2)) = l.mergeSort specTopRel := by
  rw [← List.mergeSort_enum]
  have hperm : List.Perm
      ((List.mergeSort l.enum
        (List.enumLE fun a b => decide (b.2 ≤ a.2))).map (fun p => p.2))
      (l.mergeSort specTopRel) := by
    refine ((List.mergeSort_perm _ _).map _).trans ?_
    have h2 : l.enum.map (fun p => p.2) = l := List.enum_map_snd l
    rw [h2]
    exact (List.mergeSort_perm l specTopRel).symm
  have hs2 : (l.mergeSort specTopRel).Pairwise
      fun a b => specTopRel a b = true :=
    List.sorted_mergeSort specTopRel_trans
      (fun a b => specTopRel_total a b) l
  have hs1 : List.Pairwise (fun a b => specTopRel a b = true)
      ((List.mergeSort l.enum
        (List.enumLE fun a b => decide (b.2 ≤ a.2))).map (fun p => p.2)) := by
    rw [List.pairwise_map]
    have hp := List.sorted_mergeSort
      (List.enumLE_trans salesDesc_trans)
      (List.enumLE_total salesDesc_total) l.enum
    refine hp.imp_of_mem ?_
    intro x y hx hy hxy
    rw [List.mem_mergeSort] at hx hy
    have hiff := enum_fst_le_iff hl hx hy
    by_cases hba : y.2.2 ≤ x.2.2
    · by_cases hab : x.2.2 ≤ y.2.2
      · have hij : x.1 ≤ y.1 := by
          unfold List.enumLE at hxy
          simpa [hba, hab] using hxy
        unfold specTopRel
        simp [le_antisymm hab hba, hiff.1 hij]
      · have hlt : y.2.2 < x.2.2 := lt_of_le_not_le hba hab
        unfold specTopRel
        simp [hlt]
    · unfold List.enumLE at hxy
      simp [hba] at hxy
  exact List.Perm.eq_of_sorted
    (fun a b _ _ h1 h2 => specTopRel_antisymm h1 h2) hs1 hs2 hperm

/-! ## Helper lemmas about the load pipeline -/

theorem mem_load1 {files : List RawFile} {r : DataRow1}
    (h : r ∈ load_and_prepare_data files) :
    ∃ m ∈ meltedRows (combinedRows files), posValue m.value = true ∧
      r = ⟨m.maker, m.year, m.month, m.category, m.value.getD 0,
           monthCode m.year m.month, quarterValueOfMonth m.month,
           "Q" ++ toString (quarterValueOfMonth m.month)⟩ := by
  unfold load_and_prepare_data at h
  split at h
  · simp at h
  · rcases List.mem_map.1 h with ⟨m, hm, rfl⟩
    rcases List.mem_filter.1 hm with ⟨hmm, hp⟩
    exact ⟨m, hmm, hp, rfl⟩

theorem mem_load2 {files : List RawFile} {r : DataRow2}
    (h : r ∈ load_and_prepare_data2 files) :
    ∃ m ∈ meltedRows (combinedRows files), posValue m.value = true ∧
      r = ⟨m.maker, m.year, m.month, m.category, m.value.getD 0,
           monthCode m.year m.month, quarterValueOfMonth m.month,
           quarterCode m.year (quarterValueOfMonth m.month)⟩ := by
  unfold load_and_prepare_data2 at h
  split at h
  · simp at h
  · rcases List.mem_map.1 h with ⟨m, hm, rfl⟩
    rcases List.mem_filter.1 hm with ⟨hmm, hp⟩
    exact ⟨m, hmm, hp, rfl⟩

theorem posValue_some {v : Option Int} (h : posValue v = true) :
    ∃ x : Int, v = some x ∧ 0 < x := by
  cases v with
  | none => simp [posValue] at h
  | some x => exact ⟨x, rfl, by simpa [posValue] using h⟩

theorem month_of_mem_melted {L : List WideRow} {m : MeltRow}
    (h : m ∈ meltedRows L) : ∃ w ∈ L, m.month = w.month := by
  unfold meltedRows meltOne at h
  rcases List.mem_append.1 h with h | h
  · rcases List.mem_append.1 h with h | h <;>
      {rcases List.mem_map.1 h with ⟨w, hw, rfl⟩; exact ⟨w, hw, rfl⟩}
  · rcases List.mem_map.1 h with ⟨w, hw, rfl⟩
    exact ⟨w, hw, rfl⟩

theorem month_of_mem_combined {files : List RawFile} {w : WideRow}
    (h : w ∈ combinedRows files) : ∃ f ∈ files, w.month = f.month := by
  unfold combinedRows loadedFiles at h
  rcases List.mem_flatten.1 h with ⟨wl, hwl, hw⟩
  rcases List.mem_filterMap.1 hwl with ⟨f, hf, hc⟩
  rcases Option.map_eq_some'.1 hc with ⟨rows, hcon, rfl⟩
  rcases List.mem_map.1 hw with ⟨row, _, rfl⟩
  exact ⟨f, hf, rfl⟩

theorem month_of_mem_load1 {files : List RawFile} {r : DataRow1}
    (h : r ∈ load_and_prepare_data files) :
    (∃ f ∈ files, r.month = f.month) ∧
      r.quarterValue = quarterValueOfMonth r.month := by
  rcases mem_load1 h with ⟨m, hm, _, rfl⟩
  rcases month_of_mem_melted hm with ⟨w, hw, hmw⟩
  rcases month_of_mem_combined hw with ⟨f, hf, hwf⟩
  exact ⟨⟨f, hf, by simp [hmw, hwf]⟩, rfl⟩

/-! ## C7 -/

/-- C7: the top-n manufacturers computation equals the spec's description —
group by maker, sum, order by total descending with ties broken by maker name
ascending, keep n — and its result is unchanged under any reordering of the
input rows. -/
theorem claim_C7 (data dataP : List DataRow1) (n : Nat)
    (hperm : List.Perm data dataP) :
    nlargestBySales (groupbyMakerSum data) n = specTopManufacturers data n ∧
    top_manufacturers data n = (specTopManufacturers data n).map (fun p => p.1) ∧
    groupbyMakerSum data = groupbyMakerSum dataP ∧
    top_manufacturers data n = top_manufacturers dataP n := by
  have hmain : ∀ d : List DataRow1,
      nlargestBySales (groupbyMakerSum d) n = specTopManufacturers d n := by
    intro d
    unfold nlargestBySales specTopManufacturers
    rw [mergeSort_desc_eq_spec (groupbyMakerSum_strict d)]
  have hkeys : groupKeys data = groupKeys dataP := by
    unfold groupKeys
    have hp : List.Perm ((data.filterMap fun r => r.maker).dedup)
        ((dataP.filterMap fun r => r.maker).dedup) :=
      (hperm.filterMap _).dedup
    refine List.Perm.eq_of_sorted
      (fun a b _ _ h1 h2 =>
        le_antisymm (by simpa using h1) (by simpa using h2))
      (List.sorted_mergeSort stringLe_trans stringLe_total _)
      (List.sorted_mergeSort stringLe_trans stringLe_total _)
      ((List.mergeSort_perm _ _).trans (hp.trans (List.mergeSort_perm _ _).symm))
  have hgroup : groupbyMakerSum data = groupbyMakerSum dataP := by
    unfold groupbyMakerSum
    rw [hkeys]
    refine List.map_congr_left fun m hm => ?_
    refine congrArg (Prod.mk m) ?_
    unfold sumRegs
    exact ((hperm.filter _).map _).sum_eq
  refine ⟨hmain data, ?_, hgroup, ?_⟩
  · unfold top_manufacturers
    rw [hmain data]
  · unfold top_manufacturers nlargestBySales
    rw [hgroup]

/-- Witness for C7 at a concrete input: reversing the dataset's rows leaves
the ranking unchanged. -/
theorem claim_C7_witness :
    top_manufacturers (load_and_prepare_data sampleFilesC1) 10 =
      top_manufacturers (load_and_prepare_data sampleFilesC1).reverse 10 :=
  (claim_C7 (load_and_prepare_data sampleFilesC1)
    (load_and_prepare_data sampleFilesC1).reverse 10
    (List.reverse_perm _).symm).2.2.2

/-! ## C8 -/

/-- C8: every record of the normalized dataset (either dashboard variant) has
strictly positive registrations; zero, negative and missing cells never
produce a record. -/
theorem claim_C8 (files : List RawFile) :
    (∀ r ∈ load_and_prepare_data files, 0 < r.registrations) ∧
    (∀ r ∈ load_and_prepare_data2 files, 0 < r.registrations) := by
  constructor
  · intro r hr
    rcases mem_load1 hr with ⟨m, _, hp, rfl⟩
    rcases posValue_some hp with ⟨x, hx, hxp⟩
    simpa [hx] using hxp
  · intro r hr
    rcases mem_load2 hr with ⟨m, _, hp, rfl⟩
    rcases posValue_some hp with ⟨x, hx, hxp⟩
    simpa [hx] using hxp

/-- Witness for C8 at a concrete input. -/
theorem claim_C8_witness :
    (⟨some "X", 2023, 1, "2W", 5, 24276, 1, "Q1"⟩ : DataRow1) ∈
        load_and_prepare_data sampleFilesA ∧
      0 < (⟨some "X", 2023, 1, "2W", 5, 24276, 1, "Q1"⟩ : DataRow1).registrations :=
  ⟨by decide, (claim_C8 sampleFilesA).1 _ (by decide)⟩

/-! ## C9 -/

/-- C9: for inputs whose file months are calendar months, every record's
derived quarter is `ceil(month / 3)`: months 1–3 give quarter 1, 4–6 give 2,
7–9 give 3, 10–12 give 4. -/
theorem claim_C9 (files : List RawFile)
    (hm : ∀ f ∈ files, 1 ≤ f.month ∧ f.month ≤ 12) :
    ∀ r ∈ load_and_prepare_data files,
      r.quarterValue = (r.month + 2) / 3 ∧
      (r.month ≤ 3 → r.quarterValue = 1) ∧
      (4 ≤ r.month → r.month ≤ 6 → r.quarterValue = 2) ∧
      (7 ≤ r.month → r.month ≤ 9 → r.quarterValue = 3) ∧
      (10 ≤ r.month → r.quarterValue = 4) := by
  intro r hr
  rcases month_of_mem_load1 hr with ⟨⟨f, hf, hmf⟩, hq⟩
  rcases hm f hf with ⟨h1, h2⟩
  rw [hq, hmf]
  revert h1 h2
  generalize f.month = mo
  intro h1 h2
  interval_cases mo <;> exact ⟨by decide, by decide, by decide, by decide, by decide⟩

/-- Witness for C9 at a concrete input. -/
theorem claim_C9_witness :
    (⟨some "X", 2023, 1, "2W", 5, 24276, 1, "Q1"⟩ : DataRow1).quarterValue =
      ((⟨some "X", 2023, 1, "2W", 5, 24276, 1, "Q1"⟩ : DataRow1).month + 2) / 3 :=
  ((claim_C9 sampleFilesA (by decide)) _ (by decide)).1

/-! ## C10 -/

/-- C10: the two `load_and_prepare_data` variants agree row-for-row on every
shared column; they differ only in the `Quarter` representation — a `Q<n>`
string in `dashboard.py` versus the year-qualified quarterly period in
`dashboard2.py`. -/
theorem claim_C10 (files : List RawFile) :
    (load_and_prepare_data files).map core1 =
        (load_and_prepare_data2 files).map core2 ∧
    (load_and_prepare_data files).map (fun r => r.quarter) =
        (load_and_prepare_data files).map
          (fun r => "Q" ++ toString r.quarterValue) ∧
    (load_and_prepare_data2 files).map (fun r => r.quarter) =
        (load_and_prepare_data2 files).map
          (fun r => quarterCode r.year r.quarterValue) := by
  unfold load_and_prepare_data load_and_prepare_data2
  split
  · exact ⟨rfl, rfl, rfl⟩
  · refine ⟨?_, ?_, ?_⟩ <;> simp only [List.map_map] <;> rfl

/-! ## C5 -/

/-- C5 counterexample: in `dashboard2.py` the download is built from
`filtered_data` unmodified, so the exported table still contains the
derived-date and derived-quarter-numeric columns (shown on a concrete
one-record subset). -/
theorem claim_C5_counterexample :
    "Date" ∈ downloadColumns2 ∧ "QuarterValue" ∈ downloadColumns2 ∧
    downloadTable2 (load_and_prepare_data2 sampleFilesA) =
      [["Maker", "year", "month", "Vehicle Category", "Registrations",
        "Date", "QuarterValue", "Quarter"],
       ["X", "2023", "1", "2W", "5", "24276", "1", "8092"]] := by
  exact ⟨by decide, by decide, by decide⟩

/-- C5 amended: in `dashboard.py` the export does drop exactly the `Date` and
`QuarterValue` columns and leaves every other cell unchanged, but in
`dashboard2.py` the export keeps all columns of the subset, the derived-date
and derived-quarter-numeric columns included. -/
theorem claim_C5_amended :
    downloadColumns1 =
      ["Maker", "year", "month", "Vehicle Category", "Registrations", "Quarter"] ∧
    (∀ r : DataRow1,
      downloadColumns1.map (cellOf1 r) =
        ((dataColumns.map (cellOf1 r)).eraseIdx 6).eraseIdx 5) ∧
    downloadColumns2 = dataColumns := by
  exact ⟨by decide, fun r => rfl, rfl⟩

/-! ## C2 -/

theorem sumRegs_cons (r : DataRow1) (l : List DataRow1) :
    sumRegs (r :: l) = r.registrations + sumRegs l := by
  unfold sumRegs
  rw [List.map_cons, List.sum_cons]

theorem sumRegs_nonneg {l : List DataRow1}
    (h : ∀ r ∈ l, 0 < r.registrations) : 0 ≤ sumRegs l := by
  induction l with
  | nil => exact le_refl 0
  | cons r t ih =>
    rw [sumRegs_cons]
    have h1 := h r (List.mem_cons_self r t)
    have h2 := ih fun x hx => h x (List.mem_cons_of_mem r hx)
    omega

theorem sumRegs_pos {l : List DataRow1}
    (h : ∀ r ∈ l, 0 < r.registrations) (hne : l ≠ []) : 0 < sumRegs l := by
  cases l with
  | nil => exact absurd rfl hne
  | cons r t =>
    rw [sumRegs_cons]
    have h1 := h r (List.mem_cons_self r t)
    have h2 := sumRegs_nonneg fun x hx => h x (List.mem_cons_of_mem r hx)
    omega

theorem mem_groupKeys {l : List DataRow1} {m : String} :
    m ∈ groupKeys l ↔ ∃ r ∈ l, r.maker = some m := by
  unfold groupKeys
  rw [List.mem_mergeSort, List.mem_dedup, List.mem_filterMap]

theorem mem_unionKeys {a b : List DataRow1} {m : String} :
    m ∈ unionKeys a b ↔ m ∈ groupKeys a ∨ m ∈ groupKeys b := by
  unfold unionKeys
  rw [List.mem_mergeSort, List.mem_dedup, List.mem_append]

theorem groupSum_some_pos {l : List DataRow1} {m : String} {s : Int}
    (hpos : ∀ r ∈ l, 0 < r.registrations)
    (h : groupSum l m = some s) : 0 < s := by
  unfold groupSum at h
  split at h
  · cases h
  · rename_i hne
    cases h
    refine sumRegs_pos (fun r hr => hpos r (List.mem_filter.1 hr).1) ?_
    intro hnil
    rw [hnil] at hne
    simp at hne

theorem groupSum_of_mem {l : List DataRow1} {m : String}
    (h : ∃ r ∈ l, r.maker = some m) : ∃ s, groupSum l m = some s := by
  rcases h with ⟨r, hr, hm⟩
  unfold groupSum
  rw [if_neg ?_]
  · exact ⟨_, rfl⟩
  · intro he
    rw [List.isEmpty_eq_true, List.filter_eq_nil_iff] at he
    exact he r hr (by simp [hm])

theorem yoyQuarterData_subset {data : List DataRow1} {y : Int}
    {qLabel : String} {cats : List String} :
    ∀ r ∈ yoyQuarterData data y qLabel cats, r ∈ data := by
  intro r hr
  unfold yoyQuarterData at hr
  exact (List.mem_filter.1 (List.mem_filter.1 hr).1).1

/-- C2: every growth value either dashboard produces equals the
`(cur - prev) / prev * 100` formula when the prior total is nonzero and is
exactly 0 on a zero prior; the final YoY ranking table keeps one finite entry
per maker — nothing is `NaN` or infinite and no entry is dropped. -/
theorem claim_C2 (data : List DataRow1)
    (hpos : ∀ r ∈ data, 0 < r.registrations)
    (y : Int) (qLabel : String) (cats makers : List String) (cur prev : Int) :
    (prev ≠ 0 → growthIfPrev cur prev =
      (((cur : ℚ) - (prev : ℚ)) / (prev : ℚ)) * 100) ∧
    (prev = 0 → growthIfPrev cur prev = 0) ∧
    dropnaGrowth (growth_df data y qLabel cats) =
      specGrowthTable data y qLabel cats ∧
    (∀ row ∈ yoyTop5 data y qLabel cats, ∃ x : ℚ, row.yoyGrowth = PFloat.val x) ∧
    (∀ row ∈ yoySelected data y qLabel cats makers,
      ∃ x : ℚ, row.yoyGrowth = PFloat.val x) := by
  have hposPrev : ∀ r ∈ yoyQuarterData data (y - 1) qLabel cats,
      0 < r.registrations := fun r hr => hpos r (yoyQuarterData_subset r hr)
  have hposCur : ∀ r ∈ yoyQuarterData data y qLabel cats,
      0 < r.registrations := fun r hr => hpos r (yoyQuarterData_subset r hr)
  have key : ∀ m ∈ unionKeys (yoyQuarterData data (y - 1) qLabel cats)
      (yoyQuarterData data y qLabel cats),
      replaceInfWithZero (yoyGrowthRaw
        ((groupSum (yoyQuarterData data y qLabel cats) m).getD 0)
        ((groupSum (yoyQuarterData data (y - 1) qLabel cats) m).getD 0)) =
      PFloat.val
        (if (groupSum (yoyQuarterData data (y - 1) qLabel cats) m).getD 0 = 0
         then 0
         else ((((groupSum (yoyQuarterData data y qLabel cats) m).getD 0 : ℚ) -
            ((groupSum (yoyQuarterData data (y - 1) qLabel cats) m).getD 0 : ℚ)) /
            ((groupSum (yoyQuarterData data (y - 1) qLabel cats) m).getD 0 : ℚ)) *
            100) := by
    intro m hm
    cases hp : groupSum (yoyQuarterData data (y - 1) qLabel cats) m with
    | some p =>
      have hppos := groupSum_some_pos hposPrev hp
      simp only [Option.getD_some]
      rw [if_neg (by omega)]
      unfold yoyGrowthRaw
      rw [if_neg (by omega)]
      rfl
    | none =>
      rcases mem_unionKeys.1 hm with hmem | hmem
      · rcases groupSum_of_mem (mem_groupKeys.1 hmem) with ⟨s, hs⟩
        rw [hs] at hp
        cases hp
      · rcases groupSum_of_mem (mem_groupKeys.1 hmem) with ⟨c, hc⟩
        have hcpos := groupSum_some_pos hposCur hc
        rw [hc]
        simp only [Option.getD_some, Option.getD_none, if_true]
        unfold yoyGrowthRaw
        rw [if_pos rfl, if_pos (by omega)]
        rfl
  have hdf : growth_df data y qLabel cats = specGrowthTable data y qLabel cats := by
    unfold growth_df specGrowthTable
    refine List.map_congr_left fun m hm => ?_
    exact congrArg
      (GrowthRow.mk m
        ((groupSum (yoyQuarterData data (y - 1) qLabel cats) m).getD 0)
        ((groupSum (yoyQuarterData data y qLabel cats) m).getD 0))
      (key m hm)
  have hval : ∀ row ∈ growth_df data y qLabel cats,
      ∃ x : ℚ, row.yoyGrowth = PFloat.val x := by
    rw [hdf]
    intro row hrow
    rcases List.mem_map.1 hrow with ⟨m, _, rfl⟩
    exact ⟨_, rfl⟩
  have hdrop : dropnaGrowth (growth_df data y qLabel cats) =
      growth_df data y qLabel cats := by
    unfold dropnaGrowth
    rw [List.filter_eq_self]
    intro row hrow
    rcases hval row hrow with ⟨x, hx⟩
    simp [hx]
  refine ⟨fun h => by simp [growthIfPrev, h], fun h => by simp [growthIfPrev, h],
    hdrop.trans hdf, ?_, ?_⟩
  · intro row hrow
    unfold yoyTop5 at hrow
    have h1 := List.mem_of_mem_take hrow
    rw [List.mem_mergeSort] at h1
    rw [hdrop] at h1
    exact hval row h1
  · intro row hrow
    unfold yoySelected at hrow
    rw [List.mem_mergeSort] at hrow
    have h1 := (List.mem_filter.1 hrow).1
    rw [hdrop] at h1
    exact hval row h1

/-- Witness for C2 at a concrete input. -/
theorem claim_C2_witness : growthIfPrev 5 0 = 0 :=
  (claim_C2 (load_and_prepare_data sampleFilesC2) (by decide)
    2023 "Q1" ["2W"] ["A", "B"] 5 0).2.1 rfl

/-! ## C6 -/

theorem pfloatLe_trans (a b c : PFloat) (hab : pfloatLe a b = true)
    (hbc : pfloatLe b c = true) : pfloatLe a c = true := by
  cases a <;> cases b <;> cases c <;> simp_all [pfloatLe] <;>
    exact le_trans hab hbc

theorem pfloatLe_total (a b : PFloat) : pfloatLe a b || pfloatLe b a := by
  cases a <;> cases b <;> simp [pfloatLe] <;> exact le_total _ _

theorem growthDesc_trans (a b c : GrowthRow) (hab : growthDesc a b = true)
    (hbc : growthDesc b c = true) : growthDesc a c = true :=
  pfloatLe_trans _ _ _ hbc hab

theorem growthDesc_total (a b : GrowthRow) : growthDesc a b || growthDesc b a :=
  by simpa [growthDesc, Bool.or_comm] using pfloatLe_total a.yoyGrowth b.yoyGrowth

attribute [local semireducible] Rat.mul Rat.sub Rat.add Rat.inv

unseal String.ltb List.merge List.mergeSort in
/-- C6 counterexample: in "Selected Companies" mode the output is re-sorted
by growth descending (B before A), not left in the filtered-selection order
(A before B). -/
theorem claim_C6_counterexample :
    (((dropnaGrowth (growth_df (load_and_prepare_data sampleFilesC6)
          2023 "Q1" ["2W"])).filter
        fun r => ["A", "B"].contains r.maker).map fun r => r.maker) =
      ["A", "B"] ∧
    ((yoySelected (load_and_prepare_data sampleFilesC6)
        2023 "Q1" ["2W"] ["A", "B"]).map fun r => r.maker) = ["B", "A"] := by
  exact ⟨by decide, by decide⟩

/-- C6 amended: makers present in only one of the two quarters get the missing
side filled with 0, and top-growth mode is sorted by growth descending with at
most five rows; selected-companies mode restricts to the selected makers but
is likewise sorted by growth descending rather than left in selection
order. -/
theorem claim_C6_amended (data : List DataRow1) (y : Int) (qLabel : String)
    (cats makers : List String) :
    (∀ row ∈ growth_df data y qLabel cats,
      ((∀ r ∈ yoyQuarterData data (y - 1) qLabel cats,
          r.maker ≠ some row.maker) → row.previousSales = 0) ∧
      ((∀ r ∈ yoyQuarterData data y qLabel cats,
          r.maker ≠ some row.maker) → row.currentSales = 0)) ∧
    (yoyTop5 data y qLabel cats).length ≤ 5 ∧
    List.Pairwise (fun a b => growthDesc a b = true)
      (yoyTop5 data y qLabel cats) ∧
    (∀ row ∈ yoySelected data y qLabel cats makers,
      makers.contains row.maker = true) ∧
    List.Pairwise (fun a b => growthDesc a b = true)
      (yoySelected data y qLabel cats makers) := by
  have hsorted : ∀ l : List GrowthRow,
      List.Pairwise (fun a b => growthDesc a b = true)
        (l.mergeSort growthDesc) := by
    intro l
    have := List.sorted_mergeSort growthDesc_trans growthDesc_total l
    exact this.imp fun h => h
  refine ⟨?_, ?_, ?_, ?_, ?_⟩
  · intro row hrow
    unfold growth_df at hrow
    rcases List.mem_map.1 hrow with ⟨m, _, rfl⟩
    constructor
    · intro hno
      have : groupSum (yoyQuarterData data (y - 1) qLabel cats) m = none := by
        unfold groupSum
        rw [if_pos]
        rw [List.isEmpty_eq_true, List.filter_eq_nil_iff]
        intro r hr hm
        exact hno r hr (by simpa using hm)
      simp [this]
    · intro hno
      have : groupSum (yoyQuarterData data y qLabel cats) m = none := by
        unfold groupSum
        rw [if_pos]
        rw [List.isEmpty_eq_true, List.filter_eq_nil_iff]
        intro r hr hm
        exact hno r hr (by simpa using hm)
      simp [this]
  · exact List.length_take_le 5 _
  · exact (hsorted _).sublist (List.take_sublist 5 _)
  · intro row hrow
    unfold yoySelected at hrow
    rw [List.mem_mergeSort] at hrow
    exact (List.mem_filter.1 hrow).2
  · exact hsorted _

/-- Witness for the amended C6 at a concrete input. -/
theorem claim_C6_amended_witness :
    List.Pairwise (fun a b => growthDesc a b = true)
      (yoySelected (load_and_prepare_data sampleFilesC6)
        2023 "Q1" ["2W"] ["A", "B"]) :=
  (claim_C6_amended (load_and_prepare_data sampleFilesC6)
    2023 "Q1" ["2W"] ["A", "B"]).2.2.2.2

/-! ## C3 -/

/-- C3 counterexample: the pipeline never deduplicates, so one file with two
rows for the same maker yields two records sharing the
(manufacturer, category, year, month) key. -/
theorem claim_C3_counterexample :
    ((load_and_prepare_data sampleFilesC3).filter fun r =>
        decide (keyOf r = (some "X", "2W", 2023, 1))).length = 2 ∧
    ¬ ((load_and_prepare_data sampleFilesC3).map keyOf).Nodup := by
  exact ⟨by decide, by decide⟩

theorem combined_key_nodup {files : List RawFile}
    (hfiles : (files.map fun f => (f.year, f.month)).Nodup)
    (hrows : ∀ f ∈ files, ((f.content.getD []).map fun r => r.maker).Nodup) :
    ((combinedRows files).map wideKey).Nodup := by
  unfold combinedRows loadedFiles
  rw [List.map_flatten, List.nodup_flatten, List.map_filterMap]
  constructor
  · intro l hl
    rcases List.mem_filterMap.1 hl with ⟨f, hf, hc⟩
    rcases Option.map_eq_some'.1 (by simpa using hc) with ⟨rows, hcon, hrfl⟩
    have hnd : (rows.map fun r => r.maker).Nodup := by
      have := hrows f hf
      rw [hcon] at this
      simpa using this
    have hinj : Function.Injective
        (fun mk : Option String => (mk, f.year, f.month)) := by
      intro a b hab
      simpa using congrArg (fun p : Option String × Int × Nat => p.1) hab
    have hres := hnd.map hinj
    rw [List.map_map] at hres
    rw [← hrfl]
    exact hres
  · rw [List.pairwise_filterMap]
    have hp := List.pairwise_map.1 hfiles
    refine hp.imp ?_
    intro f g hne b hb c hc k hkb hkc
    apply hne
    rw [Option.mem_def] at hb hc
    rcases Option.map_eq_some'.1 hb with ⟨bl, hbl, hbeq⟩
    rcases Option.map_eq_some'.1 hbl with ⟨rf, hrf, hblr⟩
    rcases Option.map_eq_some'.1 hc with ⟨cl, hcl, hceq⟩
    rcases Option.map_eq_some'.1 hcl with ⟨rg, hrg, hclr⟩
    subst hblr hclr hbeq hceq
    rw [List.map_map] at hkb hkc
    rcases List.mem_map.1 hkb with ⟨x, _, hx⟩
    rcases List.mem_map.1 hkc with ⟨y, _, hy⟩
    have h1 : k.2 = (f.year, f.month) := by rw [← hx]; rfl
    have h2 : k.2 = (g.year, g.month) := by rw [← hy]; rfl
    rw [← h1, ← h2]

theorem melted_key_nodup {L : List WideRow} (h : (L.map wideKey).Nodup) :
    ((meltedRows L).map meltKey).Nodup := by
  have block : ∀ (c : String) (get : WideRow → Option Int),
      ((meltOne c get L).map meltKey) =
        (L.map wideKey).map fun k => (k.1, c, k.2.1, k.2.2) := by
    intro c get
    unfold meltOne wideKey meltKey
    rw [List.map_map, List.map_map]
    rfl
  have binj : ∀ c : String, Function.Injective
      (fun k : Option String × Int × Nat => (k.1, c, k.2.1, k.2.2)) := by
    intro c a b hab
    have h1 := congrArg (fun p : Option String × String × Int × Nat => p.1) hab
    have h2 := congrArg (fun p : Option String × String × Int × Nat => p.2.2.1) hab
    have h3 := congrArg (fun p : Option String × String × Int × Nat => p.2.2.2) hab
    simp only at h1 h2 h3
    exact Prod.ext h1 (Prod.ext h2 h3)
  have bnd : ∀ c get, ((meltOne c get L).map meltKey).Nodup := by
    intro c get
    rw [block c get]
    exact h.map (binj c)
  have bcat : ∀ (c : String) (get) (k), k ∈ (meltOne c get L).map meltKey →
      k.2.1 = c := by
    intro c get k hk
    rw [block c get] at hk
    rcases List.mem_map.1 hk with ⟨x, _, rfl⟩
    rfl
  unfold meltedRows
  rw [List.map_append, List.map_append]
  refine List.Nodup.append (List.Nodup.append (bnd _ _) (bnd _ _) ?_)
    (bnd _ _) ?_
  · intro k h2 h3
    have := bcat _ _ _ h2
    have := bcat _ _ _ h3
    simp_all
  · intro k h23 h4
    have h4c := bcat _ _ _ h4
    rcases List.mem_append.1 h23 with h2 | h3
    · have := bcat _ _ _ h2; simp_all
    · have := bcat _ _ _ h3; simp_all

/-- C3 amended: the at-most-one-record-per-key invariant does hold whenever no
two accepted files carry the same (year, month) and no file contains two rows
for the same maker; the pipeline itself never deduplicates. -/
theorem claim_C3_amended (files : List RawFile)
    (hfiles : (files.map fun f => (f.year, f.month)).Nodup)
    (hrows : ∀ f ∈ files, ((f.content.getD []).map fun r => r.maker).Nodup) :
    ((load_and_prepare_data files).map keyOf).Nodup := by
  unfold load_and_prepare_data
  split
  · simp
  · rw [List.map_map]
    show (((meltedRows (combinedRows files)).filter fun m => posValue m.value).map
      meltKey).Nodup
    exact List.Nodup.sublist
      ((List.filter_sublist _).map meltKey)
      (melted_key_nodup (combined_key_nodup hfiles hrows))

/-- Witness for the amended C3 at a concrete input. -/
theorem claim_C3_amended_witness :
    ((load_and_prepare_data sampleFilesC1).map keyOf).Nodup :=
  claim_C3_amended sampleFilesC1 (by decide) (by decide)

/-! ## C4 -/

/-- C4 counterexample: a parseable file lacking the required `Maker` column is
neither reported nor excluded — its positive `2W` cell becomes a record (with
a missing maker) in the combined dataset. -/
theorem claim_C4_counterexample :
    ((load_and_prepare_data sampleFilesC4).map fun r => (r.maker, r.registrations)) =
      [(some "X", 100), (none, 5)] ∧
    (load_and_prepare_data sampleFilesC4).all (fun r => r.maker.isSome) = false := by
  exact ⟨by decide, by decide⟩

theorem loadedFiles_filter (files : List RawFile) :
    loadedFiles (files.filter fun f => f.content.isSome) = loadedFiles files := by
  induction files with
  | nil => rfl
  | cons f t ih =>
    cases hc : f.content with
    | none => simpa [loadedFiles, List.filter_cons, List.filterMap_cons, hc]
        using ih
    | some rows => simpa [loadedFiles, List.filter_cons, List.filterMap_cons, hc]
        using ih

theorem melt_blocks_mem {L : List WideRow} {w : WideRow} (hw : w ∈ L) :
    (⟨w.maker, w.year, w.month, "2W", w.w2⟩ : MeltRow) ∈ meltedRows L ∧
    (⟨w.maker, w.year, w.month, "3W", w.w3⟩ : MeltRow) ∈ meltedRows L ∧
    (⟨w.maker, w.year, w.month, "4W", w.w4⟩ : MeltRow) ∈ meltedRows L := by
  unfold meltedRows meltOne
  refine ⟨?_, ?_, ?_⟩
  · exact List.mem_append.2 (Or.inl (List.mem_append.2 (Or.inl
      (List.mem_map_of_mem _ hw))))
  · exact List.mem_append.2 (Or.inl (List.mem_append.2 (Or.inr
      (List.mem_map_of_mem _ hw))))
  · exact List.mem_append.2 (Or.inr (List.mem_map_of_mem _ hw))

theorem load1_mem_of_melt {files : List RawFile} {m : MeltRow}
    (hme : m ∈ meltedRows (combinedRows files)) {v : Int}
    (hv : m.value = some v) (hvpos : 0 < v) :
    (⟨m.maker, m.year, m.month, m.category, v, monthCode m.year m.month,
      quarterValueOfMonth m.month,
      "Q" ++ toString (quarterValueOfMonth m.month)⟩ : DataRow1) ∈
      load_and_prepare_data files := by
  have hne : ¬ ((loadedFiles files).isEmpty = true) := by
    intro hemp
    rw [List.isEmpty_eq_true] at hemp
    rcases month_of_mem_melted hme with ⟨w, hw, _⟩
    unfold combinedRows at hw
    rw [hemp] at hw
    simp at hw
  unfold load_and_prepare_data
  rw [if_neg hne]
  have hmem : m ∈ (meltedRows (combinedRows files)).filter
      fun x => posValue x.value :=
    List.mem_filter.2 ⟨hme, by simp [posValue, hv, hvpos]⟩
  have hmap := List.mem_map_of_mem (fun x : MeltRow =>
    (⟨x.maker, x.year, x.month, x.category, x.value.getD 0,
      monthCode x.year x.month, quarterValueOfMonth x.month,
      "Q" ++ toString (quarterValueOfMonth x.month)⟩ : DataRow1)) hmem
  simpa [hv] using hmap

/-- C4 amended: a file on which `pd.read_csv` raises is excluded and the
remaining files load unchanged; but a parseable file lacking required columns
is not excluded — every positive category cell (`2W`, `3W` or `4W`) of any
parsed row (missing maker included) contributes its record to the combined
dataset. -/
theorem claim_C4_amended (files : List RawFile) :
    load_and_prepare_data files =
      load_and_prepare_data (files.filter fun f => f.content.isSome) ∧
    (∀ f ∈ files, ∀ row ∈ f.content.getD [],
      (∀ v : Int, row.w2 = some v → 0 < v →
        (⟨row.maker, f.year, f.month, "2W", v, monthCode f.year f.month,
          quarterValueOfMonth f.month,
          "Q" ++ toString (quarterValueOfMonth f.month)⟩ : DataRow1) ∈
          load_and_prepare_data files) ∧
      (∀ v : Int, row.w3 = some v → 0 < v →
        (⟨row.maker, f.year, f.month, "3W", v, monthCode f.year f.month,
          quarterValueOfMonth f.month,
          "Q" ++ toString (quarterValueOfMonth f.month)⟩ : DataRow1) ∈
          load_and_prepare_data files) ∧
      (∀ v : Int, row.w4 = some v → 0 < v →
        (⟨row.maker, f.year, f.month, "4W", v, monthCode f.year f.month,
          quarterValueOfMonth f.month,
          "Q" ++ toString (quarterValueOfMonth f.month)⟩ : DataRow1) ∈
          load_and_prepare_data files)) := by
  constructor
  · unfold load_and_prepare_data combinedRows
    rw [loadedFiles_filter]
  · intro f hf row hrow
    cases hcon : f.content with
    | none => rw [hcon] at hrow; simp at hrow
    | some rows =>
      rw [hcon] at hrow
      simp only [Option.getD_some] at hrow
      have hwl : (rows.map fun r =>
          (⟨r.maker, f.year, f.month, r.w2, r.w3, r.w4⟩ : WideRow)) ∈
          loadedFiles files := by
        refine List.mem_filterMap.2 ⟨f, hf, ?_⟩
        rw [hcon]; rfl
      have hw : (⟨row.maker, f.year, f.month, row.w2, row.w3, row.w4⟩ : WideRow) ∈
          combinedRows files :=
        List.mem_flatten.2 ⟨_, hwl, List.mem_map_of_mem _ hrow⟩
      have hblocks := melt_blocks_mem hw
      exact ⟨fun v hv hvpos => load1_mem_of_melt hblocks.1 hv hvpos,
             fun v hv hvpos => load1_mem_of_melt hblocks.2.1 hv hvpos,
             fun v hv hvpos => load1_mem_of_melt hblocks.2.2 hv hvpos⟩

/-- Witness for the amended C4 at a concrete input: the maker-less file's row
is present in the loaded dataset. -/
theorem claim_C4_amended_witness :
    (⟨none, 2023, 2, "2W", 5, 24277, 1, "Q1"⟩ : DataRow1) ∈
      load_and_prepare_data sampleFilesC4 :=
  ((claim_C4_amended sampleFilesC4).2
    ⟨2023, 2, some [⟨none, some 5, none, none⟩]⟩ (by decide)
    ⟨none, some 5, none, none⟩ (by decide)).1 5 rfl (by decide)

/-! ## C1 -/

/-- C1 counterexample: in Overall-Trend mode the prior-quarter lookup runs on
`filtered_data`, which is already restricted to the selected year range; on a
dataset with December 2022 and January 2023 records and the range pinned to
2023, the code's prior-quarter total is 0 while the total over the dataset
restricted only by category/maker is 100. -/
theorem claim_C1_counterexample :
    overall_prev_quarter_registrations
        (filtered_data (load_and_prepare_data sampleFilesC1) 2023 2023
          ["2W"] ["M"]) = 0 ∧
    specPriorQuarterTotal (load_and_prepare_data sampleFilesC1) ["2W"] ["M"]
        (latest_quarter_period
          (filtered_data (load_and_prepare_data sampleFilesC1) 2023 2023
            ["2W"] ["M"]) - 1) = 100 := by
  exact ⟨by decide, by decide⟩

/-- C1 amended: the Monthly-mode prior totals (both dashboards) and the
Quarterly-mode prior totals (`dashboard2.py`) are computed over the dataset
restricted only by the selected categories and manufacturers; the
Overall-Trend prior totals, by contrast, are computed over the subset that is
additionally restricted by the selected year range, so a prior quarter outside
that range contributes nothing. -/
theorem claim_C1_amended (data : List DataRow1) (data2 : List DataRow2)
    (cats makers : List String) (y ylo yhi : Int) (m q : Nat) :
    prev_month_registrations data cats makers y m
      = specPriorMonthTotal data cats makers (prevMonthOf y m) ∧
    prev_year_registrations data cats makers y m
      = specPriorMonthTotal data cats makers (y - 1, m) ∧
    prev_quarter_registrations2 data2 cats makers y q
      = specPriorQuarterTotal2 data2 cats makers (quarterCode y q - 1) ∧
    prev_year_quarter_registrations2 data2 cats makers y q
      = specPriorQuarterTotal2 data2 cats makers (quarterCode y q - 4) ∧
    overall_prev_quarter_registrations (filtered_data data ylo yhi cats makers)
      = specPriorQuarterTotal
          (data.filter fun r => decide (ylo ≤ r.year) && decide (r.year ≤ yhi))
          cats makers
          (latest_quarter_period (filtered_data data ylo yhi cats makers) - 1) ∧
    overall_prev_year_quarter_registrations (filtered_data data ylo yhi cats makers)
      = specPriorQuarterTotal
          (data.filter fun r => decide (ylo ≤ r.year) && decide (r.year ≤ yhi))
          cats makers
          (latest_quarter_period (filtered_data data ylo yhi cats makers) - 4) := by
  refine ⟨?_, ?_, ?_, ?_, ?_, ?_⟩ <;>
    · simp only [prev_month_registrations, prev_year_registrations,
        prev_quarter_registrations2, prev_year_quarter_registrations2,
        overall_prev_quarter_registrations, overall_prev_year_quarter_registrations,
        specPriorMonthTotal, specPriorQuarterTotal, specPriorQuarterTotal2,
        specCatMakerData, specCatMakerData2, filtered_data, List.filter_filter]
      refine congrArg _ (List.filter_congr fun r _ => ?_)
      simp [Bool.and_comm, Bool.and_left_comm, Bool.and_assoc]

end VehicleDash
